import Mathlib

/-!
Shallow embedding of the Ludwig schema-validation pipeline
(`ludwig/schema/__init__.py`): schema assembly (`get_schema`), the
extended structural validator (`get_validator`), and the validation
orchestrator (`validate_config`), together with theorems settling the
specification claims.
-/

namespace LudwigSchema

/-- Python-value universe for configuration documents and schema fragments:
mappings, lists, tuples and scalars.  Lists and tuples are distinguished,
as the type-checker extension treats them differently from other values. -/
inductive JSON where
  | null : JSON
  | boolVal : Bool → JSON
  | intVal : Int → JSON
  | strVal : String → JSON
  | arr : List JSON → JSON
  | tup : List JSON → JSON
  | obj : List (String × JSON) → JSON

/- Constants from `ludwig.constants` (imported by the source file; their
string values are the top-level document keys named in the data model). -/

def MODEL_TYPE : String := "model_type"
def INPUT_FEATURES : String := "input_features"
def OUTPUT_FEATURES : String := "output_features"
def COMBINER : String := "combiner"
def TRAINER : String := "trainer"
def PREPROCESSING : String := "preprocessing"
def HYPEROPT : String := "hyperopt"
def DEFAULTS : String := "defaults"
def SPLIT : String := "split"
def MODEL_ECD : String := "ecd"
def MODEL_GBM : String := "gbm"

/-- Dictionary lookup: `d.get(key)` on a mapping, `none` otherwise. -/
def objGet (d : JSON) (key : String) : Option JSON :=
  match d with
  | .obj kvs => kvs.lookup key
  | _ => none

/-- Dictionary lookup with default: `d.get(key, default)`. -/
def objGetD (d : JSON) (key : String) (default : JSON) : JSON :=
  (objGet d key).getD default

/-- Errors raised by the stages of the pipeline. -/
inductive VErr where
  | upgradeError : VErr
  | splitError : String → VErr
  | unknownModelType : VErr
  | structuralError : String → VErr
  | semanticError : String → VErr
deriving DecidableEq

/-- The per-section schema-fragment providers that `get_schema` composes.
Their content is external to the module under verification; only the
trainer provider receives the model-type discriminator, and it may fail
on an unregistered discriminator. -/
structure FragmentProviders where
  model_type_jsonschema : JSON
  input_feature_jsonschema : JSON
  output_feature_jsonschema : JSON
  combiner_jsonschema : JSON
  trainer_jsonschema : String → Except VErr JSON
  preprocessing_jsonschema : JSON
  hyperopt_jsonschema : JSON
  defaults_jsonschema : JSON

/-- The composite document-level schema built by `get_schema`. -/
structure Schema where
  type : String
  properties : List (String × JSON)
  definitions : List (String × JSON)
  required : List String

/-- The schema assembler `get_schema(model_type)`: builds the composite schema dict with the
eight fixed properties, empty definitions, and the two required keys.
Building the dict evaluates every fragment provider, so a failure of the
trainer provider propagates and no schema is returned. -/
def get_schema (fp : FragmentProviders) (model_type : String) :
    Except VErr Schema := do
  let trainerFrag ← fp.trainer_jsonschema model_type
  pure
    { type := "object"
      properties :=
        [ (MODEL_TYPE, fp.model_type_jsonschema)
        , (INPUT_FEATURES, fp.input_feature_jsonschema)
        , (OUTPUT_FEATURES, fp.output_feature_jsonschema)
        , (COMBINER, fp.combiner_jsonschema)
        , (TRAINER, trainerFrag)
        , (PREPROCESSING, fp.preprocessing_jsonschema)
        , (HYPEROPT, fp.hyperopt_jsonschema)
        , (DEFAULTS, fp.defaults_jsonschema) ]
      definitions := []
      required := [INPUT_FEATURES, OUTPUT_FEATURES] }

/-- Modelled from the spec: the registered model types.  The model-type
registry lives outside this file ("only two model types exist in the
current catalog"); the discriminator must be one of them. -/
def registered_model_types : List String := [ MODEL_ECD, MODEL_GBM ]

/-- Modelled from the spec: the trainer fragment provider
`get_trainer_jsonschema(model_type)` is external to the module under
verification; per the spec it yields a fragment for a registered model
type and fails with an unknown-model-type error otherwise.  Fragment
content is out of scope, so a registered type maps to an empty fragment. -/
def spec_trainer_jsonschema (model_type : String) : Except VErr JSON :=
  if model_type ∈ registered_model_types then .ok (JSON.obj [])
  else .error .unknownModelType

/-- Modelled from the spec: the full provider set with out-of-scope
fragment content stubbed by empty objects and the trainer provider
given by `spec_trainer_jsonschema`. -/
def spec_providers : FragmentProviders :=
  { model_type_jsonschema := JSON.obj []
    input_feature_jsonschema := JSON.obj []
    output_feature_jsonschema := JSON.obj []
    combiner_jsonschema := JSON.obj []
    trainer_jsonschema := spec_trainer_jsonschema
    preprocessing_jsonschema := JSON.obj []
    hyperopt_jsonschema := JSON.obj []
    defaults_jsonschema := JSON.obj [] }

/-- The custom array predicate installed by `get_validator`:
`isinstance(instance, list) or isinstance(instance, tuple)`. -/
def custom_is_array : JSON → Bool
  | .arr _ => true
  | .tup _ => true
  | _ => false

/-- The stock Draft-7 predicate for the "array" structural type:
only the canonical list representation satisfies it. -/
def draft7_is_array : JSON → Bool
  | .arr _ => true
  | _ => false

/-- The stock Draft-7 type checker, as a map from structural-type name to
predicate (restricted to the structural types of this value universe). -/
def draft7TypeChecker : String → JSON → Bool := fun t v =>
  match t with
  | "object" => match v with | .obj _ => true | _ => false
  | "array" => draft7_is_array v
  | "string" => match v with | .strVal _ => true | _ => false
  | "integer" => match v with | .intVal _ => true | _ => false
  | "boolean" => match v with | .boolVal _ => true | _ => false
  | "null" => match v with | .null => true | _ => false
  | _ => false

/-- Predicate replacement `TYPE_CHECKER.redefine(ty, p)`: replace one structural type's predicate. -/
def redefine (tc : String → JSON → Bool) (ty : String) (p : JSON → Bool) :
    String → JSON → Bool :=
  fun t v => if t = ty then p v else tc t v

/-- A validator produced by `jsonschema.validators.extend`: a fresh class
carrying the customized type checker.  `id` records which construction
produced it, so that distinct constructions are distinguishable values. -/
structure Validator where
  id : Nat
  typeChecker : String → JSON → Bool

/-- The body of `get_validator` (ignoring the cache): extend the Draft-7
validator with the "array" predicate redefined to `custom_is_array`.
Each call allocates a fresh class, recorded by the construction index. -/
def buildValidator (nextId : Nat) : Validator :=
  { id := nextId
    typeChecker := redefine draft7TypeChecker "array" custom_is_array }

/-- State of the `lru_cache` wrapping the zero-argument `get_validator`:
the cached result, if any, and how many constructions have happened. -/
structure VCacheState where
  cache : Option Validator
  builds : Nat

def VCacheState.initial : VCacheState := { cache := none, builds := 0 }

/-- One call to the memoized `get_validator`: return the cached validator
when present, otherwise construct, cache and return a fresh one. -/
def get_validator_call (s : VCacheState) : VCacheState × Validator :=
  match s.cache with
  | some v => (s, v)
  | none =>
    let v := buildValidator s.builds
    ({ cache := some v, builds := s.builds + 1 }, v)

/-- Repeated calls (`n` of them) to the memoized `get_validator` from a given
state, collecting the returned validators. -/
def run_validator_calls : Nat → VCacheState → VCacheState × List Validator
  | 0, s => (s, [])
  | n + 1, s =>
    let (s', v) := get_validator_call s
    let (s'', vs) := run_validator_calls n s'
    (s'', v :: vs)

/-- The process-wide memoized validator value: in a fresh process the first
(and only) construction of the extended validator class. -/
def the_validator : Validator := buildValidator 0

/-- Observable pipeline events, in the order `validate_config` performs them. -/
inductive Event where
  | upgradeEv : Event
  | readModelTypeEv : Event
  | getSplitterEv : Event
  | splitterValidateEv : Event
  | acquireLockEv : Event
  | getSchemaEv : Event
  | getValidatorEv : Event
  | structuralValidateEv : Event
  | releaseLockEv : Event
  | semanticCheckEv : String → Event
deriving DecidableEq

/-- The behavior of the external collaborators `validate_config` calls:
the compatibility upgrader, the splitter factory (returning a splitter
as its `validate` behavior), the structural validator `jsonschema.validate`,
the semantic checks (looked up by name), and the fragment providers. -/
structure Env where
  upgrade : JSON → Except VErr JSON
  get_splitter : JSON → Except VErr (JSON → Except VErr Unit)
  structural_validate : JSON → Schema → Validator → Except VErr Unit
  checks : String → JSON → Except VErr Unit
  providers : FragmentProviders

/-- The sixteen semantic checks, in the order `validate_config` calls them. -/
def check_names : List String :=
  [ "check_validation_metrics_are_valid"
  , "check_feature_names_unique"
  , "check_tied_features_are_valid"
  , "check_dependent_features"
  , "check_training_runway"
  , "check_gbm_horovod_incompatibility"
  , "check_gbm_feature_types"
  , "check_ray_backend_in_memory_preprocessing"
  , "check_sequence_concat_combiner_requirements"
  , "check_tabtransformer_combiner_requirements"
  , "check_comparator_combiner_requirements"
  , "check_class_balance_preprocessing"
  , "check_sampling_exclusivity"
  , "check_hyperopt_search_space"
  , "check_hyperopt_metric_targets"
  , "check_gbm_single_output_feature" ]

/-- Run a list of semantic checks in order on the upgraded document,
stopping at the first one that raises; returns the outcome and the trace
of checks actually invoked. -/
def run_checks (checks : String → JSON → Except VErr Unit) (doc : JSON) :
    List String → Except VErr Unit × List Event
  | [] => (.ok (), [])
  | n :: ns =>
    match checks n doc with
    | .error e => (.error e, [ Event.semanticCheckEv n ])
    | .ok _ =>
      let rest := run_checks checks doc ns
      (rest.1, Event.semanticCheckEv n :: rest.2)

/-- Discriminator extraction `updated_config.get(MODEL_TYPE, MODEL_ECD)`: the discriminator read
from the upgraded document, defaulting to the standard model type. -/
def modelTypeOf (doc : JSON) : String :=
  match objGet doc MODEL_TYPE with
  | some (.strVal s) => s
  | _ => MODEL_ECD

/-- Split-section extraction `updated_config.get(PREPROCESSING, \x7b\x7d).get(SPLIT, \x7b\x7d)`: the split
section of the upgraded document, an empty configuration when absent. -/
def splitSection (doc : JSON) : JSON :=
  objGetD (objGetD doc PREPROCESSING (JSON.obj [])) SPLIT (JSON.obj [])

/-- Outcome of `validate_config`: the final heap of documents (the caller's
argument lives at its index; the upgrade allocates a fresh document), the
result, and the trace of pipeline events. -/
structure VCOut where
  heap : List JSON
  result : Except VErr Unit
  trace : List Event

/-- The orchestrator `validate_config(config)`, with the caller's document held in a heap at
index `ref` to make mutation observable.  Mirrors the source line by line:
upgrade (a fresh document), read `model_type`, resolve and run the
splitter, then under the process-wide lock evaluate `get_schema`,
`get_validator` and the structural `validate` call (the lock is released
whether the call returns or raises), and finally the sixteen semantic
checks in order. -/
def validate_config (env : Env) (heap : List JSON) (ref : Nat) : VCOut :=
  let config := heap.getD ref JSON.null
  match env.upgrade config with
  | .error e => ⟨heap, .error e, [ Event.upgradeEv ]⟩
  | .ok updated =>
    let heap' := heap ++ [ updated ]
    let model_type := modelTypeOf updated
    match env.get_splitter (splitSection updated) with
    | .error e =>
      ⟨heap', .error e, [ Event.upgradeEv, .readModelTypeEv, .getSplitterEv ]⟩
    | .ok splitter =>
      match splitter updated with
      | .error e =>
        ⟨heap', .error e,
          [ Event.upgradeEv, .readModelTypeEv, .getSplitterEv, .splitterValidateEv ]⟩
      | .ok _ =>
        match get_schema env.providers model_type with
        | .error e =>
          ⟨heap', .error e,
            [ Event.upgradeEv, .readModelTypeEv, .getSplitterEv, .splitterValidateEv,
              .acquireLockEv, .getSchemaEv, .releaseLockEv ]⟩
        | .ok schema =>
          match env.structural_validate updated schema the_validator with
          | .error e =>
            ⟨heap', .error e,
              [ Event.upgradeEv, .readModelTypeEv, .getSplitterEv, .splitterValidateEv,
                .acquireLockEv, .getSchemaEv, .getValidatorEv, .structuralValidateEv,
                .releaseLockEv ]⟩
          | .ok _ =>
            let sem := run_checks env.checks updated check_names
            ⟨heap', sem.1,
              [ Event.upgradeEv, .readModelTypeEv, .getSplitterEv, .splitterValidateEv,
                .acquireLockEv, .getSchemaEv, .getValidatorEv, .structuralValidateEv,
                .releaseLockEv ] ++ sem.2⟩

/-- Whether an event is a semantic-check invocation. -/
def Event.isSemantic : Event → Bool
  | .semanticCheckEv _ => true
  | _ => false

/-- The semantic-check events of a trace. -/
def semanticEvents (tr : List Event) : List Event :=
  tr.filter Event.isSemantic

/-- The events of a trace that happen while the lock is held (scanning with
the current lock state; the acquire/release markers themselves excluded). -/
def lockedEvents : List Event → Bool → List Event
  | [], _ => []
  | Event.acquireLockEv :: es, _ => lockedEvents es true
  | Event.releaseLockEv :: es, _ => lockedEvents es false
  | e :: es, held => if held then e :: lockedEvents es held else lockedEvents es held

/-- The events of a trace that happen while the lock is not held. -/
def unlockedEvents : List Event → Bool → List Event
  | [], _ => []
  | Event.acquireLockEv :: es, _ => unlockedEvents es true
  | Event.releaseLockEv :: es, _ => unlockedEvents es false
  | e :: es, held => if held then unlockedEvents es held else e :: unlockedEvents es held

/-! ### Shared lemmas about the semantic-check runner -/

theorem run_checks_all_ok (checks : String → JSON → Except VErr Unit) (doc : JSON)
    (ns : List String) (h : ∀ n ∈ ns, checks n doc = .ok ()) :
    run_checks checks doc ns = (.ok (), ns.map Event.semanticCheckEv) := by
  induction ns with
  | nil => rfl
  | cons n ns ih =>
    have hn : checks n doc = .ok () := h n (List.mem_cons_self n ns)
    have hns : ∀ m ∈ ns, checks m doc = .ok () :=
      fun m hm => h m (List.mem_cons_of_mem n hm)
    simp [run_checks, hn, ih hns]

theorem run_checks_first_error (checks : String → JSON → Except VErr Unit)
    (doc : JSON) (pre : List String) (n : String) (post : List String) (e : VErr)
    (hpre : ∀ m ∈ pre, checks m doc = .ok ()) (hn : checks n doc = .error e) :
    run_checks checks doc (pre ++ n :: post) =
      (.error e, (pre ++ [ n ]).map Event.semanticCheckEv) := by
  induction pre with
  | nil => simp [run_checks, hn]
  | cons m pre ih =>
    have hm : checks m doc = .ok () := hpre m (List.mem_cons_self m pre)
    have hpre' : ∀ m' ∈ pre, checks m' doc = .ok () :=
      fun m' hm' => hpre m' (List.mem_cons_of_mem m hm')
    simp [run_checks, hm, ih hpre']

theorem run_checks_trace_shape (checks : String → JSON → Except VErr Unit)
    (doc : JSON) (ns : List String) :
    ∃ l : List String,
      (run_checks checks doc ns).2 = l.map Event.semanticCheckEv := by
  induction ns with
  | nil => exact ⟨[], rfl⟩
  | cons n ns ih =>
    cases hn : checks n doc with
    | error e => exact ⟨[ n ], by simp [run_checks, hn]⟩
    | ok _ =>
      obtain ⟨l, hl⟩ := ih
      exact ⟨n :: l, by simp [run_checks, hn, hl]⟩

theorem lockedEvents_map_semantic (l : List String) :
    lockedEvents (l.map Event.semanticCheckEv) false = [] := by
  induction l with
  | nil => rfl
  | cons n l ih => simp [lockedEvents, ih]

theorem unlockedEvents_map_semantic (l : List String) :
    unlockedEvents (l.map Event.semanticCheckEv) false =
      l.map Event.semanticCheckEv := by
  induction l with
  | nil => rfl
  | cons n l ih => simp [unlockedEvents, ih]

theorem semanticEvents_map_semantic (l : List String) :
    semanticEvents (l.map Event.semanticCheckEv) = l.map Event.semanticCheckEv := by
  apply List.filter_eq_self.mpr
  intro e he
  obtain ⟨n, _, rfl⟩ := List.mem_map.mp he
  rfl

/-! ### Claims about `get_schema` -/

/-- C3: a discriminator string that is not a registered model type makes
`get_schema` fail with the unknown-model-type schema-assembly error
instead of returning a composite schema. -/
theorem get_schema_unknown_model_type_fails (mt : String)
    (h : mt ∉ registered_model_types) :
    get_schema spec_providers mt = .error VErr.unknownModelType := by
  simp [get_schema, spec_providers, spec_trainer_jsonschema, h]

/-- Witness for C3 at the concrete unregistered discriminator "llm". -/
theorem get_schema_unknown_model_type_fails_witness :
    "llm" ∉ registered_model_types ∧
      get_schema spec_providers "llm" = .error VErr.unknownModelType :=
  ⟨by decide, get_schema_unknown_model_type_fails "llm" (by decide)⟩

/-- C5: every schema `get_schema` returns has `required` exactly
`[input_features, output_features]` and properties with exactly the eight
fixed top-level keys, independent of the discriminator; only the trainer
fragment provider receives the discriminator, so two discriminators with
the same trainer fragment yield the same schema. -/
theorem get_schema_fixed_toplevel_shape (fp : FragmentProviders) (mt : String)
    (s : Schema) (h : get_schema fp mt = .ok s) :
    s.required = [ INPUT_FEATURES, OUTPUT_FEATURES ] ∧
    s.properties.map Prod.fst =
      [ MODEL_TYPE, INPUT_FEATURES, OUTPUT_FEATURES, COMBINER, TRAINER,
        PREPROCESSING, HYPEROPT, DEFAULTS ] ∧
    (∀ mt' : String, fp.trainer_jsonschema mt' = fp.trainer_jsonschema mt →
      get_schema fp mt' = get_schema fp mt) := by
  cases htr : fp.trainer_jsonschema mt with
  | error e => simp [get_schema, htr] at h
  | ok frag =>
    simp [get_schema, htr] at h
    refine ⟨?_, ?_, ?_⟩
    · rw [← h]
    · rw [← h]
      rfl
    · intro mt' hmt'
      simp [get_schema, hmt', htr]

/-- The composite schema assembled from the spec-modelled providers. -/
def spec_ecd_schema : Schema :=
  { type := "object"
    properties :=
      [ (MODEL_TYPE, JSON.obj [])
      , (INPUT_FEATURES, JSON.obj [])
      , (OUTPUT_FEATURES, JSON.obj [])
      , (COMBINER, JSON.obj [])
      , (TRAINER, JSON.obj [])
      , (PREPROCESSING, JSON.obj [])
      , (HYPEROPT, JSON.obj [])
      , (DEFAULTS, JSON.obj []) ]
    definitions := []
    required := [ INPUT_FEATURES, OUTPUT_FEATURES ] }

/-- Witness for C5 at the standard model type. -/
theorem get_schema_fixed_toplevel_shape_witness :
    spec_ecd_schema.required = [ INPUT_FEATURES, OUTPUT_FEATURES ] ∧
    spec_ecd_schema.properties.map Prod.fst =
      [ MODEL_TYPE, INPUT_FEATURES, OUTPUT_FEATURES, COMBINER, TRAINER,
        PREPROCESSING, HYPEROPT, DEFAULTS ] ∧
    (∀ mt' : String,
      spec_providers.trainer_jsonschema mt' =
        spec_providers.trainer_jsonschema MODEL_ECD →
      get_schema spec_providers mt' = get_schema spec_providers MODEL_ECD) :=
  get_schema_fixed_toplevel_shape spec_providers MODEL_ECD spec_ecd_schema (by rfl)

/-- C10: every schema `get_schema` returns has top-level type "object" and
an empty definitions mapping, for every discriminator. -/
theorem get_schema_object_type_empty_definitions (fp : FragmentProviders)
    (mt : String) (s : Schema) (h : get_schema fp mt = .ok s) :
    s.type = "object" ∧ s.definitions = [] := by
  cases htr : fp.trainer_jsonschema mt with
  | error e => simp [get_schema, htr] at h
  | ok frag =>
    simp [get_schema, htr] at h
    constructor
    · rw [← h]
    · rw [← h]

/-- Witness for C10 at the GBM model type. -/
theorem get_schema_object_type_empty_definitions_witness :
    spec_ecd_schema.type = "object" ∧ spec_ecd_schema.definitions = [] :=
  get_schema_object_type_empty_definitions spec_providers MODEL_GBM
    spec_ecd_schema (by rfl)

/-! ### Claims about the extended validator -/

/-- C6: the customized "array" type predicate holds exactly for lists and
tuples; the extended validator installs precisely this predicate for the
"array" structural type, so a tuple passes the array type check wherever a
list does. -/
theorem array_type_checker_accepts_lists_and_tuples :
    (∀ v : JSON, custom_is_array v = true ↔
      ((∃ xs, v = JSON.arr xs) ∨ (∃ xs, v = JSON.tup xs))) ∧
    (∀ v : JSON, the_validator.typeChecker "array" v = custom_is_array v) ∧
    (∀ xs : List JSON,
      the_validator.typeChecker "array" (JSON.tup xs) =
        the_validator.typeChecker "array" (JSON.arr xs)) := by
  refine ⟨?_, ?_, ?_⟩
  · intro v
    cases v <;> simp [custom_is_array]
  · intro v
    simp [the_validator, buildValidator, redefine]
  · intro xs
    simp [the_validator, buildValidator, redefine, custom_is_array]

/-! ### Claim about the memoization of `get_validator` -/

theorem run_validator_calls_cached (n : Nat) (v : Validator) (b : Nat) :
    run_validator_calls n ⟨some v, b⟩ = (⟨some v, b⟩, List.replicate n v) := by
  induction n with
  | zero => rfl
  | succ n ih =>
    simp [run_validator_calls, get_validator_call, ih, List.replicate_succ]

/-- C9: the memoized `get_validator` is a process-wide singleton: after any
number of calls in a fresh process, the extended validator class was
constructed at most once and every call returned that same validator. -/
theorem get_validator_memoized_singleton (n : Nat) :
    (run_validator_calls n VCacheState.initial).1.builds ≤ 1 ∧
    ∀ v ∈ (run_validator_calls n VCacheState.initial).2, v = the_validator := by
  cases n with
  | zero =>
    refine ⟨?_, ?_⟩
    · simp [run_validator_calls, VCacheState.initial]
    · intro v hv
      simp [run_validator_calls] at hv
  | succ n =>
    have hrun : run_validator_calls (n + 1) VCacheState.initial =
        (⟨some the_validator, 1⟩, the_validator :: List.replicate n the_validator) := by
      simp [run_validator_calls, get_validator_call, VCacheState.initial,
        the_validator, run_validator_calls_cached]
    rw [hrun]
    refine ⟨le_refl 1, ?_⟩
    intro v hv
    rcases List.mem_cons.mp hv with h | h
    · exact h
    · exact List.eq_of_mem_replicate h

/-! ### Claims about the orchestrator `validate_config` -/

/-- The events of a run in which upgrade, split validation and structural
validation all succeed, up to and including the lock release. -/
def okStagesTrace : List Event :=
  [ Event.upgradeEv, .readModelTypeEv, .getSplitterEv, .splitterValidateEv,
    .acquireLockEv, .getSchemaEv, .getValidatorEv, .structuralValidateEv,
    .releaseLockEv ]

/-- The trace of a `validate_config` run. -/
def vc_trace (env : Env) (heap : List JSON) (ref : Nat) : List Event :=
  (validate_config env heap ref).trace

theorem validate_config_all_stages_ok
    (env : Env) (heap : List JSON) (ref : Nat) (u : JSON)
    (sp : JSON → Except VErr Unit) (s : Schema)
    (h1 : env.upgrade (heap.getD ref JSON.null) = .ok u)
    (h2 : env.get_splitter (splitSection u) = .ok sp)
    (h3 : sp u = .ok ())
    (h4 : get_schema env.providers (modelTypeOf u) = .ok s)
    (h5 : env.structural_validate u s the_validator = .ok ()) :
    validate_config env heap ref =
      ⟨heap ++ [ u ], (run_checks env.checks u check_names).1,
        okStagesTrace ++ (run_checks env.checks u check_names).2⟩ := by
  simp only [validate_config, h1, h2, h3, h4, h5, okStagesTrace, List.cons_append,
    List.nil_append]

/-- C1: when the document has both a structural violation (the structural
validator raises on it) and a semantic-rule violation (some semantic check
raises on it), `validate_config` surfaces the structural error and invokes
no semantic check at all. -/
theorem structural_error_shadows_semantic_checks
    (env : Env) (heap : List JSON) (ref : Nat) (u : JSON)
    (sp : JSON → Except VErr Unit) (s : Schema) (e : VErr)
    (h1 : env.upgrade (heap.getD ref JSON.null) = .ok u)
    (h2 : env.get_splitter (splitSection u) = .ok sp)
    (h3 : sp u = .ok ())
    (h4 : get_schema env.providers (modelTypeOf u) = .ok s)
    (h5 : env.structural_validate u s the_validator = .error e)
    (h6 : ∃ n ∈ check_names, ∃ e', env.checks n u = .error e') :
    (validate_config env heap ref).result = .error e ∧
    semanticEvents (validate_config env heap ref).trace = [] := by
  have hvc : validate_config env heap ref =
      ⟨heap ++ [ u ], .error e,
        [ Event.upgradeEv, .readModelTypeEv, .getSplitterEv, .splitterValidateEv,
          .acquireLockEv, .getSchemaEv, .getValidatorEv, .structuralValidateEv,
          .releaseLockEv ]⟩ := by
    simp only [validate_config, h1, h2, h3, h4, h5]
  rw [hvc]
  exact ⟨rfl, rfl⟩

/-- An environment in which the document passes upgrade and split
validation, fails structural validation, and would also fail a semantic
check. -/
def env_structural_and_semantic_bad : Env :=
  { upgrade := fun d => .ok d
    get_splitter := fun _ => .ok (fun _ => .ok ())
    structural_validate := fun _ _ _ => .error (.structuralError "output_features")
    checks := fun _ _ => .error (.semanticError "duplicate feature name")
    providers := spec_providers }

/-- Witness for C1 on a concrete document with both kinds of violation. -/
theorem structural_error_shadows_semantic_checks_witness :
    (validate_config env_structural_and_semantic_bad [ JSON.obj [] ] 0).result =
      .error (.structuralError "output_features") ∧
    semanticEvents
      (validate_config env_structural_and_semantic_bad [ JSON.obj [] ] 0).trace = [] :=
  structural_error_shadows_semantic_checks env_structural_and_semantic_bad
    [ JSON.obj [] ] 0 (JSON.obj []) (fun _ => .ok ()) spec_ecd_schema
    (.structuralError "output_features") (by rfl) (by rfl) (by rfl) (by rfl) (by rfl)
    ⟨"check_feature_names_unique", by decide, .semanticError "duplicate feature name",
      by rfl⟩

/-- C2: once upgrade, split validation and structural validation succeed,
`validate_config` runs the sixteen semantic checks in their fixed order:
if every check passes it returns normally having invoked all sixteen in
order, and the first failing check's error is surfaced with no later
check invoked. -/
theorem semantic_checks_run_in_fixed_order_fail_fast
    (env : Env) (heap : List JSON) (ref : Nat) (u : JSON)
    (sp : JSON → Except VErr Unit) (s : Schema)
    (h1 : env.upgrade (heap.getD ref JSON.null) = .ok u)
    (h2 : env.get_splitter (splitSection u) = .ok sp)
    (h3 : sp u = .ok ())
    (h4 : get_schema env.providers (modelTypeOf u) = .ok s)
    (h5 : env.structural_validate u s the_validator = .ok ()) :
    check_names.length = 16 ∧
    ((∀ n ∈ check_names, env.checks n u = .ok ()) →
      (validate_config env heap ref).result = .ok () ∧
      semanticEvents (validate_config env heap ref).trace =
        check_names.map Event.semanticCheckEv) ∧
    (∀ (pre : List String) (n : String) (post : List String) (e : VErr),
      check_names = pre ++ n :: post →
      (∀ m ∈ pre, env.checks m u = .ok ()) →
      env.checks n u = .error e →
      (validate_config env heap ref).result = .error e ∧
      semanticEvents (validate_config env heap ref).trace =
        (pre ++ [ n ]).map Event.semanticCheckEv) := by
  have hvc := validate_config_all_stages_ok env heap ref u sp s h1 h2 h3 h4 h5
  refine ⟨rfl, ?_, ?_⟩
  · intro hall
    have hrc := run_checks_all_ok env.checks u check_names hall
    rw [hvc, hrc]
    exact ⟨rfl, semanticEvents_map_semantic check_names⟩
  · intro pre n post e hsplit hpre hn
    have hrc := run_checks_first_error env.checks u pre n post e hpre hn
    rw [hvc, hsplit, hrc]
    exact ⟨rfl, semanticEvents_map_semantic (pre ++ [ n ])⟩

/-- An environment in which every stage and every semantic check passes. -/
def env_all_ok : Env :=
  { upgrade := fun d => .ok d
    get_splitter := fun _ => .ok (fun _ => .ok ())
    structural_validate := fun _ _ _ => .ok ()
    checks := fun _ _ => .ok ()
    providers := spec_providers }

/-- Witness for C2 on a concrete document that passes every stage. -/
theorem semantic_checks_run_in_fixed_order_fail_fast_witness :
    check_names.length = 16 ∧
    ((∀ n ∈ check_names, env_all_ok.checks n (JSON.obj []) = .ok ()) →
      (validate_config env_all_ok [ JSON.obj [] ] 0).result = .ok () ∧
      semanticEvents (validate_config env_all_ok [ JSON.obj [] ] 0).trace =
        check_names.map Event.semanticCheckEv) ∧
    (∀ (pre : List String) (n : String) (post : List String) (e : VErr),
      check_names = pre ++ n :: post →
      (∀ m ∈ pre, env_all_ok.checks m (JSON.obj []) = .ok ()) →
      env_all_ok.checks n (JSON.obj []) = .error e →
      (validate_config env_all_ok [ JSON.obj [] ] 0).result = .error e ∧
      semanticEvents (validate_config env_all_ok [ JSON.obj [] ] 0).trace =
        (pre ++ [ n ]).map Event.semanticCheckEv) :=
  semantic_checks_run_in_fixed_order_fail_fast env_all_ok [ JSON.obj [] ] 0
    (JSON.obj []) (fun _ => .ok ()) spec_ecd_schema
    (by rfl) (by rfl) (by rfl) (by rfl) (by rfl)

theorem vc_heap_shape (env : Env) (heap : List JSON) (ref : Nat) :
    (validate_config env heap ref).heap = heap ∨
      ∃ u, (validate_config env heap ref).heap = heap ++ [ u ] := by
  cases h1 : env.upgrade (heap.getD ref JSON.null) with
  | error e => left; simp only [validate_config, h1]
  | ok u =>
    right
    refine ⟨u, ?_⟩
    cases h2 : env.get_splitter (splitSection u) with
    | error e => simp only [validate_config, h1, h2]
    | ok sp =>
      cases h3 : sp u with
      | error e => simp only [validate_config, h1, h2, h3]
      | ok v =>
        cases h4 : get_schema env.providers (modelTypeOf u) with
        | error e => simp only [validate_config, h1, h2, h3, h4]
        | ok s =>
          cases h5 : env.structural_validate u s the_validator with
          | error e => simp only [validate_config, h1, h2, h3, h4, h5]
          | ok v2 => simp only [validate_config, h1, h2, h3, h4, h5]

/-- C7: `validate_config` never mutates the caller's document: every cell
of the caller's heap — in particular the argument document — is unchanged
after the call, whether validation succeeds or raises; the upgrade step
only allocates a fresh document. -/
theorem validate_config_preserves_caller_document
    (env : Env) (heap : List JSON) (ref : Nat) :
    (validate_config env heap ref).heap.take heap.length = heap ∧
    ∀ i, i < heap.length →
      (validate_config env heap ref).heap[i]? = heap[i]? := by
  rcases vc_heap_shape env heap ref with h | ⟨u, h⟩
  · rw [h]
    exact ⟨by simp, fun i _ => rfl⟩
  · rw [h]
    refine ⟨List.take_left heap [ u ], ?_⟩
    intro i hi
    exact List.getElem?_append_left hi

theorem vc_trace_shape (env : Env) (heap : List JSON) (ref : Nat) :
    vc_trace env heap ref = [ Event.upgradeEv ] ∨
    vc_trace env heap ref =
      [ Event.upgradeEv, .readModelTypeEv, .getSplitterEv ] ∨
    vc_trace env heap ref =
      [ Event.upgradeEv, .readModelTypeEv, .getSplitterEv, .splitterValidateEv ] ∨
    vc_trace env heap ref =
      [ Event.upgradeEv, .readModelTypeEv, .getSplitterEv, .splitterValidateEv,
        .acquireLockEv, .getSchemaEv, .releaseLockEv ] ∨
    vc_trace env heap ref = okStagesTrace ∨
    ∃ l : List String,
      vc_trace env heap ref = okStagesTrace ++ l.map Event.semanticCheckEv := by
  cases h1 : env.upgrade (heap.getD ref JSON.null) with
  | error e => left; simp only [vc_trace, validate_config, h1]
  | ok u =>
    cases h2 : env.get_splitter (splitSection u) with
    | error e => right; left; simp only [vc_trace, validate_config, h1, h2]
    | ok sp =>
      cases h3 : sp u with
      | error e =>
        right; right; left
        simp only [vc_trace, validate_config, h1, h2, h3]
      | ok v =>
        cases h4 : get_schema env.providers (modelTypeOf u) with
        | error e =>
          right; right; right; left
          simp only [vc_trace, validate_config, h1, h2, h3, h4]
        | ok s =>
          cases h5 : env.structural_validate u s the_validator with
          | error e =>
            right; right; right; right; left
            simp only [vc_trace, validate_config, h1, h2, h3, h4, h5, okStagesTrace]
          | ok v2 =>
            right; right; right; right; right
            obtain ⟨l, hl⟩ := run_checks_trace_shape env.checks u check_names
            refine ⟨l, ?_⟩
            simp only [vc_trace, validate_config, h1, h2, h3, h4, h5, okStagesTrace,
              hl, List.cons_append, List.nil_append]

theorem lockedEvents_okStagesTrace_append (l : List Event) :
    lockedEvents (okStagesTrace ++ l) false =
      Event.getSchemaEv :: Event.getValidatorEv :: Event.structuralValidateEv ::
        lockedEvents l false := rfl

theorem unlockedEvents_okStagesTrace_append (l : List Event) :
    unlockedEvents (okStagesTrace ++ l) false =
      Event.upgradeEv :: Event.readModelTypeEv :: Event.getSplitterEv ::
        Event.splitterValidateEv :: unlockedEvents l false := rfl

theorem not_mem_map_semantic (e : Event) (l : List String)
    (h : e.isSemantic = false) : e ∉ l.map Event.semanticCheckEv := by
  intro hmem
  obtain ⟨n, _, heq⟩ := List.mem_map.mp hmem
  rw [← heq] at h
  simp [Event.isSemantic] at h

theorem count_acquire_map_semantic (l : List String) :
    (l.map Event.semanticCheckEv).count Event.acquireLockEv = 0 :=
  List.count_eq_zero.mpr (not_mem_map_semantic _ l rfl)

theorem count_release_map_semantic (l : List String) :
    (l.map Event.semanticCheckEv).count Event.releaseLockEv = 0 :=
  List.count_eq_zero.mpr (not_mem_map_semantic _ l rfl)

/-- C8: the process-wide lock is held during exactly the structural
validation call and nothing else: the events under the lock are at most
the schema acquisition, the validator acquisition and the structural
`validate` call; the structural call never happens outside the lock; the
lock is released exactly as often as acquired, whether the call returns
or raises; and upgrade, splitter resolution, split validation and all
semantic checks happen outside the lock. -/
theorem lock_wraps_exactly_structural_validation
    (env : Env) (heap : List JSON) (ref : Nat) :
    (∀ e ∈ lockedEvents (vc_trace env heap ref) false,
      e = Event.getSchemaEv ∨ e = Event.getValidatorEv ∨
        e = Event.structuralValidateEv) ∧
    Event.structuralValidateEv ∉ unlockedEvents (vc_trace env heap ref) false ∧
    (vc_trace env heap ref).count Event.acquireLockEv =
      (vc_trace env heap ref).count Event.releaseLockEv ∧
    Event.upgradeEv ∉ lockedEvents (vc_trace env heap ref) false ∧
    Event.getSplitterEv ∉ lockedEvents (vc_trace env heap ref) false ∧
    Event.splitterValidateEv ∉ lockedEvents (vc_trace env heap ref) false ∧
    (∀ nm : String,
      Event.semanticCheckEv nm ∉ lockedEvents (vc_trace env heap ref) false) := by
  rcases vc_trace_shape env heap ref with h | h | h | h | h | ⟨l, h⟩ <;> rw [h]
  · exact ⟨by decide, by decide, by decide, by decide, by decide, by decide,
      fun nm => by simp [lockedEvents]⟩
  · exact ⟨by decide, by decide, by decide, by decide, by decide, by decide,
      fun nm => by simp [lockedEvents]⟩
  · exact ⟨by decide, by decide, by decide, by decide, by decide, by decide,
      fun nm => by simp [lockedEvents]⟩
  · exact ⟨by decide, by decide, by decide, by decide, by decide, by decide,
      fun nm => by simp [lockedEvents]⟩
  · exact ⟨by decide, by decide, by decide, by decide, by decide, by decide,
      fun nm => by simp [lockedEvents, okStagesTrace]⟩
  · rw [lockedEvents_okStagesTrace_append, unlockedEvents_okStagesTrace_append,
      lockedEvents_map_semantic]
    refine ⟨by decide, ?_, ?_, by decide, by decide, by decide, ?_⟩
    · intro hmem
      rcases List.mem_cons.mp hmem with h' | hmem'
      · exact Event.noConfusion h'
      · rcases List.mem_cons.mp hmem' with h' | hmem'
        · exact Event.noConfusion h'
        · rcases List.mem_cons.mp hmem' with h' | hmem'
          · exact Event.noConfusion h'
          · rcases List.mem_cons.mp hmem' with h' | hmem'
            · exact Event.noConfusion h'
            · rw [unlockedEvents_map_semantic] at hmem'
              exact not_mem_map_semantic Event.structuralValidateEv l rfl hmem'
    · rw [List.count_append, List.count_append, count_acquire_map_semantic,
        count_release_map_semantic]
      decide
    · intro nm
      simp

/-- C4 counterexample: on a concrete document, the trace of
`validate_config` reads `model_type` (discriminator extraction) strictly
before resolving and running the splitter (split validation), each event
occurring exactly once, so split validation does not happen before
discriminator extraction as the claim states. -/
theorem split_before_discriminator_extraction_cex :
    vc_trace env_structural_and_semantic_bad [ JSON.obj [] ] 0 =
      [ Event.upgradeEv, .readModelTypeEv, .getSplitterEv, .splitterValidateEv,
        .acquireLockEv, .getSchemaEv, .getValidatorEv, .structuralValidateEv,
        .releaseLockEv ] ∧
    Event.readModelTypeEv ∈ vc_trace env_structural_and_semantic_bad [ JSON.obj [] ] 0 ∧
    Event.splitterValidateEv ∈ vc_trace env_structural_and_semantic_bad [ JSON.obj [] ] 0 ∧
    (vc_trace env_structural_and_semantic_bad [ JSON.obj [] ] 0).count
      Event.readModelTypeEv = 1 ∧
    (vc_trace env_structural_and_semantic_bad [ JSON.obj [] ] 0).count
      Event.splitterValidateEv = 1 ∧
    (vc_trace env_structural_and_semantic_bad [ JSON.obj [] ] 0).indexOf
        Event.readModelTypeEv <
      (vc_trace env_structural_and_semantic_bad [ JSON.obj [] ] 0).indexOf
        Event.getSplitterEv ∧
    (vc_trace env_structural_and_semantic_bad [ JSON.obj [] ] 0).indexOf
        Event.readModelTypeEv <
      (vc_trace env_structural_and_semantic_bad [ JSON.obj [] ] 0).indexOf
        Event.splitterValidateEv ∧
    ¬ ((vc_trace env_structural_and_semantic_bad [ JSON.obj [] ] 0).indexOf
          Event.splitterValidateEv <
        (vc_trace env_structural_and_semantic_bad [ JSON.obj [] ] 0).indexOf
          Event.readModelTypeEv) := by
  decide

/-- C4 (amended): split validation — extracting `preprocessing.split`,
resolving it to a splitter and running its `validate` on the upgraded
document — happens after upgrade and after discriminator extraction
(which the code performs immediately after upgrade), and before schema
acquisition and before structural validation; in particular, if the
splitter's `validate` raises, its error is surfaced and structural
validation is never invoked. -/
theorem split_validation_after_discriminator_before_structural
    (env : Env) (heap : List JSON) (ref : Nat) (u : JSON)
    (sp : JSON → Except VErr Unit)
    (h1 : env.upgrade (heap.getD ref JSON.null) = .ok u)
    (h2 : env.get_splitter (splitSection u) = .ok sp) :
    ((vc_trace env heap ref).indexOf Event.upgradeEv <
      (vc_trace env heap ref).indexOf Event.readModelTypeEv) ∧
    ((vc_trace env heap ref).indexOf Event.readModelTypeEv <
      (vc_trace env heap ref).indexOf Event.splitterValidateEv) ∧
    Event.splitterValidateEv ∈ vc_trace env heap ref ∧
    (Event.structuralValidateEv ∈ vc_trace env heap ref →
      (vc_trace env heap ref).indexOf Event.splitterValidateEv <
        (vc_trace env heap ref).indexOf Event.getSchemaEv ∧
      (vc_trace env heap ref).indexOf Event.splitterValidateEv <
        (vc_trace env heap ref).indexOf Event.structuralValidateEv) ∧
    (∀ e, sp u = .error e →
      (validate_config env heap ref).result = .error e ∧
      Event.structuralValidateEv ∉ vc_trace env heap ref) := by
  cases h3 : sp u with
  | error e0 =>
    have htr : vc_trace env heap ref =
        [ Event.upgradeEv, .readModelTypeEv, .getSplitterEv,
          .splitterValidateEv ] := by
      simp only [vc_trace, validate_config, h1, h2, h3]
    rw [htr]
    refine ⟨by decide, by decide, by decide, ?_, ?_⟩
    · intro hmem
      exact absurd hmem (by decide)
    · intro e he
      injection he with heq
      subst heq
      exact ⟨by simp only [validate_config, h1, h2, h3], by decide⟩
  | ok v =>
    cases h4 : get_schema env.providers (modelTypeOf u) with
    | error e =>
      have htr : vc_trace env heap ref =
          [ Event.upgradeEv, .readModelTypeEv, .getSplitterEv, .splitterValidateEv,
            .acquireLockEv, .getSchemaEv, .releaseLockEv ] := by
        cases v
        simp only [vc_trace, validate_config, h1, h2, h3, h4]
      rw [htr]
      refine ⟨by decide, by decide, by decide, ?_, fun e he => Except.noConfusion he⟩
      intro hmem
      exact absurd hmem (by decide)
    | ok s =>
      cases h5 : env.structural_validate u s the_validator with
      | error e =>
        have htr : vc_trace env heap ref = okStagesTrace := by
          cases v
          simp only [vc_trace, validate_config, h1, h2, h3, h4, h5, okStagesTrace]
        rw [htr]
        exact ⟨by decide, by decide, by decide, fun _ => ⟨by decide, by decide⟩,
          fun e he => Except.noConfusion he⟩
      | ok v2 =>
        obtain ⟨l, hl⟩ := run_checks_trace_shape env.checks u check_names
        have htr : vc_trace env heap ref =
            okStagesTrace ++ l.map Event.semanticCheckEv := by
          cases v
          simp only [vc_trace, validate_config, h1, h2, h3, h4, h5, okStagesTrace,
            hl, List.cons_append, List.nil_append]
        have iu : (okStagesTrace ++ l.map Event.semanticCheckEv).indexOf
            Event.upgradeEv = okStagesTrace.indexOf Event.upgradeEv :=
          List.indexOf_append_of_mem (by decide)
        have ir : (okStagesTrace ++ l.map Event.semanticCheckEv).indexOf
            Event.readModelTypeEv = okStagesTrace.indexOf Event.readModelTypeEv :=
          List.indexOf_append_of_mem (by decide)
        have isp : (okStagesTrace ++ l.map Event.semanticCheckEv).indexOf
            Event.splitterValidateEv = okStagesTrace.indexOf Event.splitterValidateEv :=
          List.indexOf_append_of_mem (by decide)
        have igs : (okStagesTrace ++ l.map Event.semanticCheckEv).indexOf
            Event.getSchemaEv = okStagesTrace.indexOf Event.getSchemaEv :=
          List.indexOf_append_of_mem (by decide)
        have isv : (okStagesTrace ++ l.map Event.semanticCheckEv).indexOf
            Event.structuralValidateEv = okStagesTrace.indexOf Event.structuralValidateEv :=
          List.indexOf_append_of_mem (by decide)
        rw [htr, iu, ir, isp, igs, isv]
        refine ⟨by decide, by decide, ?_, fun _ => ⟨by decide, by decide⟩,
          fun e he => Except.noConfusion he⟩
        exact List.mem_append.mpr (Or.inl (by decide))

/-- Witness for the amended C4 on a concrete run. -/
theorem split_validation_after_discriminator_before_structural_witness :
    ((vc_trace env_all_ok [ JSON.obj [] ] 0).indexOf Event.upgradeEv <
      (vc_trace env_all_ok [ JSON.obj [] ] 0).indexOf Event.readModelTypeEv) ∧
    ((vc_trace env_all_ok [ JSON.obj [] ] 0).indexOf Event.readModelTypeEv <
      (vc_trace env_all_ok [ JSON.obj [] ] 0).indexOf Event.splitterValidateEv) ∧
    Event.splitterValidateEv ∈ vc_trace env_all_ok [ JSON.obj [] ] 0 ∧
    (Event.structuralValidateEv ∈ vc_trace env_all_ok [ JSON.obj [] ] 0 →
      (vc_trace env_all_ok [ JSON.obj [] ] 0).indexOf Event.splitterValidateEv <
        (vc_trace env_all_ok [ JSON.obj [] ] 0).indexOf Event.getSchemaEv ∧
      (vc_trace env_all_ok [ JSON.obj [] ] 0).indexOf Event.splitterValidateEv <
        (vc_trace env_all_ok [ JSON.obj [] ] 0).indexOf Event.structuralValidateEv) ∧
    (∀ e, (fun _ => (.ok () : Except VErr Unit)) (JSON.obj []) = .error e →
      (validate_config env_all_ok [ JSON.obj [] ] 0).result = .error e ∧
      Event.structuralValidateEv ∉ vc_trace env_all_ok [ JSON.obj [] ] 0) :=
  split_validation_after_discriminator_before_structural env_all_ok
    [ JSON.obj [] ] 0 (JSON.obj []) (fun _ => .ok ()) (by rfl) (by rfl)

end LudwigSchema
